import Mathlib

/-!
# xo: template composition and emission engine

A shallow embedding of `internal/templates.go` and of the emission driver of
`main.go` (`getFile`, `goimports`, `writeTypes`), followed by the properties
proved about them.

Conventions of the embedding:

* a Go `error` value is an `Option GoError` (`none` is `nil`); a Go result
  pair `(v, err)` is an `Except GoError _`;
* a Go `map[string]V` is a function `String → Option V`: it has keys and
  values but no order;
* a `*TableTemplate` is an address in the registry's `heap`; `next` is the
  first address not yet allocated;
* the file system, the template parser and evaluator, `goimports`, the
  bundled assets and the declarations of the package that are not part of
  the two files are collected in `Env` and in the state that is passed
  explicitly.
-/

namespace Xo

/-! ## Errors and the file system -/

/-- The error numbers of the operating system that the code distinguishes. -/
inductive Errno
  | ENOENT
  | EEXIST
  | EACCES
  | EISDIR
  deriving DecidableEq, Repr

/-- A non-nil Go `error`: an `*os.PathError`, an `errors.New` value, or an
error produced by a library outside the two files. -/
inductive GoError
  | pathError (op : String) (path : String) (errno : Errno)
  | text (msg : String)
  | library (origin : String) (msg : String)
  deriving DecidableEq, Repr

/-- `os.IsNotExist`. -/
def osIsNotExist : Option GoError → Bool
  | some (GoError.pathError _ _ Errno.ENOENT) => true
  | _ => false

/-- `os.IsExist`. -/
def osIsExist : Option GoError → Bool
  | some (GoError.pathError _ _ Errno.EEXIST) => true
  | _ => false

/-- The type assertion `err.(*os.PathError)`: its `ok` result. -/
def isPathError : Option GoError → Bool
  | some (GoError.pathError _ _ _) => true
  | _ => false

/-- What a path names: nothing, a regular file, a directory, or something
that cannot be reached (every operation on it is refused). -/
inductive Node
  | missing
  | file (content : String)
  | dir
  | denied
  deriving DecidableEq, Repr

/-- The file system: what each path names. -/
abbrev FileSystem := String → Node

/-- Assignment at one point of a map, a heap or a file system. -/
def upd {α β : Type} [DecidableEq α] (f : α → β) (a : α) (b : β) : α → β :=
  fun x => if x = a then b else f x

/-- `os.Stat`: on success, whether the path is a directory. -/
def osStat (fs : FileSystem) (p : String) : Except GoError Bool :=
  match fs p with
  | Node.missing => Except.error (GoError.pathError "stat" p Errno.ENOENT)
  | Node.file _ => Except.ok false
  | Node.dir => Except.ok true
  | Node.denied => Except.error (GoError.pathError "stat" p Errno.EACCES)

/-- `ioutil.ReadFile`. -/
def ioutilReadFile (fs : FileSystem) (p : String) : Except GoError String :=
  match fs p with
  | Node.missing => Except.error (GoError.pathError "open" p Errno.ENOENT)
  | Node.file c => Except.ok c
  | Node.dir => Except.error (GoError.pathError "read" p Errno.EISDIR)
  | Node.denied => Except.error (GoError.pathError "open" p Errno.EACCES)

/-- The error of a Go result pair. -/
def errOf {α : Type} : Except GoError α → Option GoError
  | Except.ok _ => none
  | Except.error e => some e

/-! ## Configuration, kinds and the environment -/

/-- The fields of `ArgType` that the two files read. -/
structure ArgType where
  TemplatePath : String
  LoaderType : String
  SingleFile : Bool
  Overwrite : Bool
  Append : Bool
  SkipGoImports : Bool
  deriving DecidableEq, Repr

/-- Modelled from the spec: the declaration of `TemplateType` is not part of
the two files. The three kinds the code names are constructors; every other
kind (the dialect-specific ones) is `other n`. -/
inductive TemplateType
  | XOTemplate
  | XOTable
  | XOSingleFile
  | other (n : Nat)
  deriving DecidableEq, Repr

/-- A `*template.Template`: its name and the set of named template bodies it
is associated with (the set is shared by all templates created from one
another with `New`). -/
structure Template where
  name : String
  defs : String → Option String

/-- A context object (`interface{}`) handed to a template. -/
inductive Value
  | nil
  | tableTemplate (p : Nat)
  | args (a : ArgType)
  | singleFileData (a : ArgType) (templates : String → Option Nat)
  | data (s : String)

/-- A `TableTemplate` record. -/
structure TableTemplate where
  T : Template
  Args : ArgType
  Dots : String → Option (List Value)
  Buf : String

/-- The package-level registry: `TableTemplateKeys`, `tableTemplates`, and
the records the map points to. -/
structure Registry where
  TableTemplateKeys : List String
  tableTemplates : String → Option Nat
  heap : Nat → TableTemplate
  next : Nat

/-- The collaborators of the two files: the bundled assets (`tplbin.Asset`),
`path.Join`, `TemplateType.String`, the parser and the evaluator of
`text/template` (with the helper functions of `NewTemplateFuncs`),
the `goimports` tool, `ArgType.GetFilePath` and `inflect.Underscore`. -/
structure Env where
  asset : String → Except GoError String
  pathJoin : String → String → String
  ttString : TemplateType → String
  parseCheck : String → String → Option GoError
  execute : Template → Value → Registry → String × Option GoError
  goimportsTool : String → String → Except (String × String) String
  getFilePath : ArgType → String → String
  underscore : String → String

/-! ## internal/templates.go -/

/-- `ArgType.TemplateLoader`. -/
def TemplateLoader (env : Env) (fs : FileSystem) (a : ArgType) (name : String) :
    Except GoError String :=
  if a.TemplatePath ≠ "" then
    let tplPath := env.pathJoin a.TemplatePath name
    if !osIsNotExist (errOf (osStat fs tplPath)) then
      ioutilReadFile fs (env.pathJoin a.TemplatePath name)
    else
      env.asset name
  else
    env.asset name

/-- `ArgType.GetTemplateName`. -/
def GetTemplateName (env : Env) (a : ArgType) (tt : TemplateType) : String :=
  let loaderType :=
    if tt ≠ TemplateType.XOTemplate ∧ tt ≠ TemplateType.XOTable then
      if a.LoaderType = "oci8" ∨ a.LoaderType = "ora" then "oracle."
      else a.LoaderType ++ "."
    else ""
  loaderType ++ env.ttString tt ++ ".go.tpl"

/-- `template.New`. -/
def Template.new (name : String) : Template :=
  { name := name, defs := fun _ => none }

/-- `(*Template).New`: a template of another name in the same set. -/
def Template.child (t : Template) (name : String) : Template :=
  { name := name, defs := t.defs }

/-- `(*Template).Funcs(..).Parse(text)`: the template with its body added to
the set under its name (the set keeps the body parsed last under each name),
or the parse error (the set is then untouched). -/
def Template.parse (env : Env) (t : Template) (text : String) : Except GoError Template :=
  match env.parseCheck t.name text with
  | some e => Except.error e
  | none => Except.ok { name := t.name, defs := upd t.defs t.name (some text) }

/-- A loader or parser call, recorded to count them. -/
inductive Call
  | load (name : String)
  | parse (name : String)
  deriving DecidableEq, Repr

/-- `TemplateSet`: the loader and the compiled templates by name (the helper
functions are those of the environment). -/
structure TemplateSet where
  l : FileSystem → String → Except GoError String
  tpls : String → Option Template

/-- `ArgType.TemplateSet`, at its first call: the loader is
`ArgType.TemplateLoader` and no template is compiled. -/
def ArgType.newTemplateSet (env : Env) (a : ArgType) : TemplateSet :=
  { l := fun fs name => TemplateLoader env fs a name, tpls := fun _ => none }

/-- What one `TemplateSet.Execute` leaves: the error returned, the writer,
the set, and the loader and parser calls it made, in order. -/
structure Executed where
  err : Option GoError
  w : String
  ts : TemplateSet
  calls : List Call

/-- `TemplateSet.Execute`. -/
def TemplateSet.Execute (env : Env) (fs : FileSystem) (globals : Registry)
    (ts : TemplateSet) (w : String) (name : String) (obj : Value) : Executed :=
  match ts.tpls name with
  | some tpl =>
    let r := env.execute tpl obj globals
    { err := r.2, w := w ++ r.1, ts := ts, calls := [] }
  | none =>
    match ts.l fs name with
    | Except.error e => { err := some e, w := w, ts := ts, calls := [Call.load name] }
    | Except.ok buf =>
      match (Template.new name).parse env buf with
      | Except.error e =>
        { err := some e, w := w, ts := ts, calls := [Call.load name, Call.parse name] }
      | Except.ok tpl =>
        let r := env.execute tpl obj globals
        { err := r.2, w := w ++ r.1, ts := ts, calls := [Call.load name, Call.parse name] }

/-- The registry at the start of a run: `TableTemplateKeys = []string{}` and
`tableTemplates = map[string]*TableTemplate{}`. -/
def Registry.empty (blank : TableTemplate) : Registry :=
  { TableTemplateKeys := [], tableTemplates := fun _ => none, heap := fun _ => blank, next := 0 }

/-- `GetTableTemplate`; `args` is the package variable `Args`. -/
def GetTableTemplate (args : ArgType) (name : String) (r : Registry) : Nat × Registry :=
  match r.tableTemplates name with
  | none =>
    let tt : TableTemplate :=
      { T := Template.new name, Args := args, Dots := fun _ => none, Buf := "" }
    (r.next,
      { TableTemplateKeys := r.TableTemplateKeys ++ [name]
        tableTemplates := upd r.tableTemplates name (some r.next)
        heap := upd r.heap r.next tt
        next := r.next + 1 })
  | some p => (p, r)

/-- `TableTemplate.AssociateTemplate`: the result pair and the record after
the call. -/
def AssociateTemplate (env : Env) (fs : FileSystem) (t : TableTemplate) (tt : TemplateType)
    (obj : Value) : Except GoError Template × TableTemplate :=
  let loaderName := GetTemplateName env t.Args tt
  match TemplateLoader env fs t.Args loaderName with
  | Except.error e => (Except.error e, t)
  | Except.ok b =>
    let templateName := env.ttString tt
    match (t.T.child templateName).parse env b with
    | Except.error e => (Except.error e, t)
    | Except.ok out =>
      let dots1 :=
        match t.Dots templateName with
        | none => upd t.Dots templateName (some [Value.nil])
        | some _ => t.Dots
      let dots2 := upd dots1 templateName (some ((dots1 templateName).getD [] ++ [obj]))
      (Except.ok out, { T := { name := t.T.name, defs := out.defs }, Args := t.Args,
                        Dots := dots2, Buf := t.Buf })

/-- `GetSingleFileData`. -/
def GetSingleFileData (args : ArgType) (r : Registry) : Value :=
  Value.singleFileData args r.tableTemplates

/-! ## main.go -/

/-- The flags of `os.OpenFile` that matter: `O_CREATE`, `O_EXCL`, `O_TRUNC`,
`O_APPEND`. -/
structure OpenMode where
  create : Bool
  excl : Bool
  trunc : Bool
  append : Bool
  deriving DecidableEq, Repr

/-- `os.OpenFile` for writing: the file system after the call (the file is
created or truncated as the flags say), or the error. The open file is
referred to by its path. -/
def osOpenFile (fs : FileSystem) (p : String) (mode : OpenMode) : Except GoError FileSystem :=
  match fs p with
  | Node.denied => Except.error (GoError.pathError "open" p Errno.EACCES)
  | Node.dir => Except.error (GoError.pathError "open" p Errno.EISDIR)
  | Node.file c =>
    if mode.create && mode.excl then Except.error (GoError.pathError "open" p Errno.EEXIST)
    else Except.ok (upd fs p (Node.file (if mode.trunc then "" else c)))
  | Node.missing =>
    if mode.create then Except.ok (upd fs p (Node.file ""))
    else Except.error (GoError.pathError "open" p Errno.ENOENT)

/-- Writing to an open file: the bytes go to the end of what it holds (it was
truncated or created empty unless opened with `O_APPEND`). -/
def fileWrite (fs : FileSystem) (p : String) (out : String) : FileSystem :=
  match fs p with
  | Node.file c => upd fs p (Node.file (c ++ out))
  | _ => fs

/-- `getFile`: the file system with the file opened, or the error. -/
def getFile (args : ArgType) (fs : FileSystem) (filename : String) : Except GoError FileSystem :=
  let mode : OpenMode :=
    { create := true, trunc := true, excl := !args.Overwrite, append := false }
  match osStat fs filename with
  | Except.ok true => Except.error (GoError.text "filename cannot be directory")
  | st =>
    let mode :=
      if !isPathError (errOf st) && args.Append then
        { create := false, trunc := false, excl := false, append := true }
      else mode
    osOpenFile fs filename mode

/-- The state the emission driver works on. -/
structure World where
  reg : Registry
  fs : FileSystem
  log : List String

/-- `goimports`: the tool rewrites the file in place, or fails with an error
and its combined output. -/
def goimports (env : Env) (fname : String) (w : World) : Option GoError × World :=
  match w.fs fname with
  | Node.file c =>
    match env.goimportsTool fname c with
    | Except.ok c1 => (none, { w with fs := upd w.fs fname (Node.file c1) })
    | Except.error (e, output) =>
      (some (GoError.text output), { w with log := w.log ++ ["goimports error: " ++ e] })
  | _ => (some (GoError.text ""), { w with log := w.log ++ ["goimports error: "] })

/-- One iteration of the loop of `writeTypes`: `none` when the loop goes on
to the next name, `some err` when `writeTypes` returns `err`. The result of
`f.Close()` is discarded by the code and has no part here. -/
def writeEntity (env : Env) (args : ArgType) (tName : String) (w : World) :
    Option GoError × World :=
  let g := GetTableTemplate args tName w.reg
  let p := g.1
  let a := AssociateTemplate env w.fs (g.2.heap p) TemplateType.XOTable (Value.tableTemplate p)
  let reg := { g.2 with heap := upd g.2.heap p a.2 }
  match a.1 with
  | Except.error e => (some e, { w with reg := reg })
  | Except.ok masterTemplate =>
    if !args.SingleFile then
      let filename := env.getFilePath args (env.underscore a.2.T.name)
      match getFile args w.fs filename with
      | Except.error e =>
        if osIsExist (some e) then
          (none, { reg := reg, fs := w.fs,
                   log := w.log ++ ["not overwriting existing file:  " ++ filename] })
        else (some e, { w with reg := reg })
      | Except.ok fs1 =>
        let r := env.execute masterTemplate (Value.tableTemplate p) reg
        let w1 : World := { reg := reg, fs := fileWrite fs1 filename r.1, log := w.log }
        match r.2 with
        | some e => (some e, w1)
        | none => if !args.SkipGoImports then goimports env filename w1 else (none, w1)
    else
      let r := env.execute masterTemplate (Value.tableTemplate p) reg
      let t := reg.heap p
      (r.2, { w with reg := { reg with heap := upd reg.heap p { t with Buf := t.Buf ++ r.1 } } })

/-- The loop of `writeTypes` over the names it ranges over. -/
def writeTypesLoop (env : Env) (args : ArgType) : List String → World → Option GoError × World
  | [], w => (none, w)
  | tName :: rest, w =>
    match writeEntity env args tName w with
    | (some e, w1) => (some e, w1)
    | (none, w1) => writeTypesLoop env args rest w1

/-- The block of `writeTypes` that writes the single file (the result of
`f.Close()` is discarded there too). -/
def writeSingleFile (env : Env) (args : ArgType) (w : World) : Option GoError × World :=
  let obj := GetSingleFileData args w.reg
  let tName := env.ttString TemplateType.XOSingleFile
  let sfName := tName ++ ".go.tpl"
  match TemplateLoader env w.fs args sfName with
  | Except.error e => (some e, w)
  | Except.ok b =>
    match (Template.new tName).parse env b with
    | Except.error e => (some e, w)
    | Except.ok masterTemplate =>
      let filename := env.getFilePath args ""
      match getFile args w.fs filename with
      | Except.error e => (some e, w)
      | Except.ok fs1 =>
        let r := env.execute masterTemplate obj w.reg
        let w1 : World := { w with fs := fileWrite fs1 filename r.1 }
        match r.2 with
        | some e => (some e, w1)
        | none => if !args.SkipGoImports then goimports env filename w1 else (none, w1)

/-- `writeTypes`; `args` is also the package variable `Args`, as in `main`. -/
def writeTypes (env : Env) (args : ArgType) (w : World) : Option GoError × World :=
  match writeTypesLoop env args w.reg.TableTemplateKeys w with
  | (some e, w1) => (some e, w1)
  | (none, w1) => if args.SingleFile then writeSingleFile env args w1 else (none, w1)

/-! ## Sequences of calls -/

/-- A sequence of `GetTableTemplate` calls, one per name, in order. -/
def registerAll (args : ArgType) (names : List String) (r : Registry) : Registry :=
  names.foldl (fun acc n => (GetTableTemplate args n acc).2) r

/-- A sequence of `AssociateTemplate` calls for one kind on one record, one
per context, in order; `none` as soon as one of them fails. -/
def associateAll (env : Env) (fs : FileSystem) (tt : TemplateType) :
    List Value → TableTemplate → Option TableTemplate
  | [], t => some t
  | c :: cs, t =>
    match AssociateTemplate env fs t tt c with
    | (Except.ok _, t1) => associateAll env fs tt cs t1
    | (Except.error _, _) => none

/-- The record `GetTableTemplate` creates for a name. -/
def freshRecord (args : ArgType) (name : String) : TableTemplate :=
  { T := Template.new name, Args := args, Dots := fun _ => none, Buf := "" }

/-! ## A concrete environment -/

/-- Names of the kinds in the concrete environment. -/
def demoString : TemplateType → String
  | TemplateType.XOTemplate => "xo_db"
  | TemplateType.XOTable => "xotable"
  | TemplateType.XOSingleFile => "xosinglefile"
  | TemplateType.other 0 => "type"
  | TemplateType.other _ => "query"

/-- A concrete environment: two bundled templates, a parser that rejects the
body `BROKEN`, an evaluator that prints the name of the record it is given
(and, for the single-file data, the buffers found under the names `orders`
and `users`, visited in sorted key order as `text/template` ranges over a
map), a formatter that leaves the file as it is, and target paths made of
the entity name, or of `all` for the single file. -/
def demoEnv : Env where
  asset := fun name =>
    if name = "xotable.go.tpl" then Except.ok "TABLE"
    else if name = "xosinglefile.go.tpl" then Except.ok "ALL"
    else Except.error (GoError.library "tplbin" "asset not found")
  pathJoin := fun d n => d ++ "/" ++ n
  ttString := demoString
  parseCheck := fun _ text =>
    if text = "BROKEN" then some (GoError.library "template" "parse error") else none
  execute := fun _ v reg =>
    match v with
    | Value.tableTemplate p => ("<" ++ (reg.heap p).T.name ++ ">", none)
    | Value.singleFileData _ m =>
      (String.join (["orders", "users"].map
        (fun n => match m n with
          | some p => (reg.heap p).Buf
          | none => "")), none)
    | Value.data s => ("[" ++ s ++ "]", none)
    | _ => ("", none)
  goimportsTool := fun _ c => Except.ok c
  getFilePath := fun _ n => if n = "" then "all.xo.go" else n ++ ".xo.go"
  underscore := fun n => n

/-- A configuration: per-entity files, no override directory, no overwrite. -/
def demoArgs : ArgType :=
  { TemplatePath := "", LoaderType := "postgres", SingleFile := false, Overwrite := false,
    Append := false, SkipGoImports := false }

/-- The empty file system. -/
def emptyFS : FileSystem := fun _ => Node.missing

/-- The fresh record of `users` after the contexts `a` and `b` were
associated with the kind `XOTable`. -/
def demoAssociated : TableTemplate :=
  (AssociateTemplate demoEnv emptyFS
    (AssociateTemplate demoEnv emptyFS (freshRecord demoArgs "users") TemplateType.XOTable
      (Value.data "a")).2
    TemplateType.XOTable (Value.data "b")).2

/-- The shape of a registry built by `GetTableTemplate`: the key list has no
repetition and lists the keys of the map, the map sends distinct names to
distinct allocated addresses, and the record stored for a name carries a
template of that name. -/
structure Registry.WF (r : Registry) : Prop where
  nodup : r.TableTemplateKeys.Nodup
  keys : ∀ n, n ∈ r.TableTemplateKeys ↔ (r.tableTemplates n).isSome = true
  bound : ∀ n p, r.tableTemplates n = some p → p < r.next
  inj : ∀ n m p, r.tableTemplates n = some p → r.tableTemplates m = some p → n = m
  named : ∀ n p, r.tableTemplates n = some p → (r.heap p).T.name = n

/-- The address of the record of `tName` in an iteration of `writeTypes`. -/
def entityPtr (args : ArgType) (tName : String) (w : World) : Nat :=
  (GetTableTemplate args tName w.reg).1

/-- The result of the `AssociateTemplate` call of an iteration of
`writeTypes`, and the record after it. -/
def entityAssoc (env : Env) (args : ArgType) (tName : String) (w : World) :
    Except GoError Template × TableTemplate :=
  AssociateTemplate env w.fs ((GetTableTemplate args tName w.reg).2.heap (entityPtr args tName w))
    TemplateType.XOTable (Value.tableTemplate (entityPtr args tName w))

/-- The registry after the `AssociateTemplate` call of an iteration. -/
def entityReg (env : Env) (args : ArgType) (tName : String) (w : World) : Registry :=
  { (GetTableTemplate args tName w.reg).2 with
    heap := upd (GetTableTemplate args tName w.reg).2.heap (entityPtr args tName w)
      (entityAssoc env args tName w).2 }

/-- The target file of `tName` in per-entity mode. -/
def entityFile (env : Env) (args : ArgType) (tName : String) (w : World) : String :=
  env.getFilePath args (env.underscore (entityAssoc env args tName w).2.T.name)

/-- The state after the rendered output of an entity was written to its
opened file. -/
def entityWritten (env : Env) (args : ArgType) (tName : String) (w : World)
    (tpl : Template) (fs1 : FileSystem) : World :=
  { reg := entityReg env args tName w
    fs := fileWrite fs1 (entityFile env args tName w)
      (env.execute tpl (Value.tableTemplate (entityPtr args tName w))
        (entityReg env args tName w)).1
    log := w.log }

/-- The registry after `users` and then `orders` were registered. -/
def demoRegistry (args : ArgType) : Registry :=
  registerAll args ["users", "orders"] (Registry.empty (freshRecord args ""))

/-- Overwrite disabled, append enabled. -/
def appendArgs : ArgType := { demoArgs with Append := true }

/-- A run in which the target file of `users` exists, with append enabled. -/
def appendWorld : World :=
  { reg := demoRegistry appendArgs, fs := upd emptyFS "users.xo.go" (Node.file "old"), log := [] }

/-- A run in which the target file of `users` exists, with append disabled. -/
def keptWorld : World :=
  { reg := demoRegistry demoArgs, fs := upd emptyFS "users.xo.go" (Node.file "old"), log := [] }

/-- A run in which the target path of `users` is a directory. -/
def dirWorld : World :=
  { reg := demoRegistry demoArgs, fs := upd emptyFS "users.xo.go" Node.dir, log := [] }

/-- Single-file mode. -/
def singleArgs : ArgType := { demoArgs with SingleFile := true }

/-- A run in single-file mode on an empty file system. -/
def singleWorld : World :=
  { reg := demoRegistry singleArgs, fs := emptyFS, log := [] }

/-- A configuration with the override directory `tpl`. -/
def overrideArgs : ArgType := { demoArgs with TemplatePath := "tpl" }

/-- A first execution of `xotable.go.tpl` through a new template set, with
no override file present. -/
def firstRun : Executed :=
  TemplateSet.Execute demoEnv emptyFS (Registry.empty (freshRecord overrideArgs ""))
    (overrideArgs.newTemplateSet demoEnv) "" "xotable.go.tpl" (Value.data "a")

/-- A second execution of the same name, with another context, through the
set the first execution left. -/
def secondRun : Executed :=
  TemplateSet.Execute demoEnv emptyFS (Registry.empty (freshRecord overrideArgs ""))
    firstRun.ts firstRun.w "xotable.go.tpl" (Value.data "b")

/-- The second execution when a broken override file has appeared after the
first one. -/
def secondRunBroken : Executed :=
  TemplateSet.Execute demoEnv (upd emptyFS "tpl/xotable.go.tpl" (Node.file "BROKEN"))
    (Registry.empty (freshRecord overrideArgs "")) firstRun.ts firstRun.w "xotable.go.tpl"
    (Value.data "b")

/-! ## Properties -/

@[simp] theorem upd_same {α β : Type} [DecidableEq α] (f : α → β) (a : α) (b : β) :
    upd f a b a = b := by
  simp [upd]

theorem upd_other {α β : Type} [DecidableEq α] (f : α → β) (a : α) (b : β) (x : α)
    (h : x ≠ a) : upd f a b x = f x := by
  simp [upd, h]

/-- C7: `GetTemplateName` gives the bare kind name followed by `.go.tpl` for
the generic kinds `XOTemplate` and `XOTable`, and the loader type, a dot, the
kind name and `.go.tpl` for every other kind, where the loader types `oci8`
and `ora` both give the qualifier `oracle`; so `oci8` and `ora` give the same
name for every kind. -/
theorem C7_GetTemplateName (env : Env) (a : ArgType) (tt : TemplateType) :
    ((tt = TemplateType.XOTemplate ∨ tt = TemplateType.XOTable) →
      GetTemplateName env a tt = env.ttString tt ++ ".go.tpl") ∧
    ((tt ≠ TemplateType.XOTemplate ∧ tt ≠ TemplateType.XOTable) →
      GetTemplateName env a tt =
        (if a.LoaderType = "oci8" ∨ a.LoaderType = "ora" then "oracle" else a.LoaderType)
          ++ "." ++ env.ttString tt ++ ".go.tpl") ∧
    GetTemplateName env { a with LoaderType := "oci8" } tt =
      GetTemplateName env { a with LoaderType := "ora" } tt := by
  refine ⟨?_, ?_, ?_⟩
  · intro h
    have h1 : ¬ (tt ≠ TemplateType.XOTemplate ∧ tt ≠ TemplateType.XOTable) := by
      rcases h with h | h <;> simp [h]
    simp only [GetTemplateName, if_neg h1]
    rfl
  · intro h
    simp only [GetTemplateName, if_pos h]
    by_cases hl : a.LoaderType = "oci8" ∨ a.LoaderType = "ora"
    · simp only [if_pos hl]
      rfl
    · simp only [if_neg hl]
  · simp only [GetTemplateName]
    by_cases h : tt ≠ TemplateType.XOTemplate ∧ tt ≠ TemplateType.XOTable
    · simp [if_pos h]
    · simp [if_neg h]

/-- C7, at the kinds `XOTable` and `other 0` with the loader type `ora`. -/
theorem C7_GetTemplateName_witness :
    GetTemplateName demoEnv { demoArgs with LoaderType := "ora" } TemplateType.XOTable
        = "xotable.go.tpl" ∧
    GetTemplateName demoEnv { demoArgs with LoaderType := "ora" } (TemplateType.other 0)
        = "oracle.type.go.tpl" :=
  ⟨(C7_GetTemplateName demoEnv { demoArgs with LoaderType := "ora" } TemplateType.XOTable).1
      (Or.inr rfl),
   (C7_GetTemplateName demoEnv { demoArgs with LoaderType := "ora" } (TemplateType.other 0)).2.1
      ⟨by decide, by decide⟩⟩

/-- C3: with an override directory configured and a regular file of the
template's name in it, `TemplateLoader` returns that file's content, whatever
the bundled set holds; with no override directory, or no file of that name in
it, it returns what the bundled set gives for the name, and so fails when the
bundled set has no such asset either. -/
theorem C3_TemplateLoader (env : Env) (fs : FileSystem) (a : ArgType) (name : String) :
    (∀ c, a.TemplatePath ≠ "" → fs (env.pathJoin a.TemplatePath name) = Node.file c →
      TemplateLoader env fs a name = Except.ok c) ∧
    ((a.TemplatePath = "" ∨ fs (env.pathJoin a.TemplatePath name) = Node.missing) →
      TemplateLoader env fs a name = env.asset name) ∧
    (∀ e, (a.TemplatePath = "" ∨ fs (env.pathJoin a.TemplatePath name) = Node.missing) →
      env.asset name = Except.error e → TemplateLoader env fs a name = Except.error e) := by
  have key : (a.TemplatePath = "" ∨ fs (env.pathJoin a.TemplatePath name) = Node.missing) →
      TemplateLoader env fs a name = env.asset name := by
    intro h
    by_cases hp : a.TemplatePath = ""
    · simp [TemplateLoader, hp]
    · rcases h with h | h
      · exact absurd h hp
      · simp [TemplateLoader, hp, osStat, h, errOf, osIsNotExist]
  refine ⟨?_, key, ?_⟩
  · intro c hp hf
    simp [TemplateLoader, hp, osStat, hf, errOf, osIsNotExist, ioutilReadFile]
  · intro e h he
    rw [key h, he]

/-- C3, with the override file `tpl/xotable.go.tpl` holding `X` while the
bundled template of that name holds `TABLE`. -/
theorem C3_TemplateLoader_witness :
    TemplateLoader demoEnv (upd emptyFS "tpl/xotable.go.tpl" (Node.file "X"))
      { demoArgs with TemplatePath := "tpl" } "xotable.go.tpl" = Except.ok "X" :=
  (C3_TemplateLoader demoEnv (upd emptyFS "tpl/xotable.go.tpl" (Node.file "X"))
      { demoArgs with TemplatePath := "tpl" } "xotable.go.tpl").1 "X" (by decide) (by decide)

/-- C9: when the loader fails, or the loaded body does not parse,
`AssociateTemplate` returns that error (and no template) and the record is
unchanged; in every failing call `Dots` keeps its keys and its context lists
(so nothing is queued for the failed kind) and the template set and the
buffer are the same. -/
theorem C9_AssociateTemplate_failure (env : Env) (fs : FileSystem) (t : TableTemplate)
    (tt : TemplateType) (obj : Value) :
    (∀ e, TemplateLoader env fs t.Args (GetTemplateName env t.Args tt) = Except.error e →
      AssociateTemplate env fs t tt obj = (Except.error e, t)) ∧
    (∀ b e, TemplateLoader env fs t.Args (GetTemplateName env t.Args tt) = Except.ok b →
      env.parseCheck (env.ttString tt) b = some e →
      AssociateTemplate env fs t tt obj = (Except.error e, t)) ∧
    (∀ e, (AssociateTemplate env fs t tt obj).1 = Except.error e →
      (AssociateTemplate env fs t tt obj).2 = t ∧
      (∀ k, (AssociateTemplate env fs t tt obj).2.Dots k = t.Dots k)) := by
  refine ⟨?_, ?_, ?_⟩
  · intro e h
    simp [AssociateTemplate, h]
  · intro b e h hp
    simp [AssociateTemplate, h, Template.parse, Template.child, hp]
  · intro e h
    have ht : (AssociateTemplate env fs t tt obj).2 = t := by
      revert h
      unfold AssociateTemplate
      simp only []
      split
      · intro _; rfl
      · split
        · intro _; rfl
        · intro h; simp at h
    exact ⟨ht, fun k => by rw [ht]⟩

/-- C9, at a record whose kind resolves to no bundled template. -/
theorem C9_AssociateTemplate_failure_witness :
    AssociateTemplate demoEnv emptyFS (freshRecord demoArgs "users") (TemplateType.other 0)
        (Value.data "ctx")
      = (Except.error (GoError.library "tplbin" "asset not found"),
          freshRecord demoArgs "users") :=
  (C9_AssociateTemplate_failure demoEnv emptyFS (freshRecord demoArgs "users")
      (TemplateType.other 0) (Value.data "ctx")).1 _ (by rfl)

/-- What one successful `AssociateTemplate` does to `Dots`. -/
theorem AssociateTemplate_ok_Dots (env : Env) (fs : FileSystem) (t : TableTemplate)
    (tt : TemplateType) (obj : Value) (out : Template) (t1 : TableTemplate)
    (h : AssociateTemplate env fs t tt obj = (Except.ok out, t1)) :
    t1.Dots (env.ttString tt)
        = some ((t.Dots (env.ttString tt)).getD [Value.nil] ++ [obj]) ∧
    (∀ s, s ≠ env.ttString tt → t1.Dots s = t.Dots s) ∧
    t1.Buf = t.Buf ∧ t1.Args = t.Args ∧ t1.T.name = t.T.name := by
  unfold AssociateTemplate at h
  simp only [] at h
  split at h
  · simp at h
  · split at h
    · simp at h
    · simp only [Prod.mk.injEq] at h
      obtain ⟨_, h2⟩ := h
      subst h2
      refine ⟨?_, ?_, rfl, rfl, rfl⟩
      · cases hd : t.Dots (env.ttString tt) <;> simp [hd]
      · intro s hs
        cases hd : t.Dots (env.ttString tt) <;> simp [hd, upd_other _ _ _ _ hs]

/-- A run of successful associations appends its contexts to a list that is
already there. -/
theorem associateAll_Dots (env : Env) (fs : FileSystem) (tt : TemplateType) (cs : List Value) :
    ∀ (t t1 : TableTemplate) (l : List Value), t.Dots (env.ttString tt) = some l →
      associateAll env fs tt cs t = some t1 →
      t1.Dots (env.ttString tt) = some (l ++ cs) ∧
      (∀ s, s ≠ env.ttString tt → t1.Dots s = t.Dots s) := by
  induction cs with
  | nil =>
    intro t t1 l hl h
    simp only [associateAll, Option.some.injEq] at h
    subst h
    exact ⟨by simpa using hl, fun _ _ => rfl⟩
  | cons c cs ih =>
    intro t t1 l hl h
    unfold associateAll at h
    split at h
    · rename_i out t2 heq
      obtain ⟨h1, h2, -⟩ := AssociateTemplate_ok_Dots env fs t tt c out t2 heq
      rw [hl] at h1
      obtain ⟨h3, h4⟩ := ih t2 t1 (l ++ [c]) (by simpa using h1) h
      exact ⟨by simpa using h3, fun s hs => by rw [h4 s hs, h2 s hs]⟩
    · simp at h

/-- C8: on a fresh record, after `k ≥ 1` successful `AssociateTemplate` calls
for one kind with the contexts `c1..ck`, the list `Dots[kind]` is the reserved
placeholder followed by `c1..ck` in order (so its length is `k + 1`) and no
other key has a list; and on any record one successful call appends its
context to the list of its kind, keeping what was queued before in place,
and leaves the lists of all other keys as they were. -/
theorem C8_AssociateTemplate_Dots (env : Env) (fs : FileSystem) (tt : TemplateType) :
    (∀ (args : ArgType) (name : String) (cs : List Value) (t1 : TableTemplate), cs ≠ [] →
      associateAll env fs tt cs (freshRecord args name) = some t1 →
      t1.Dots (env.ttString tt) = some (Value.nil :: cs) ∧
      (t1.Dots (env.ttString tt)).map List.length = some (cs.length + 1) ∧
      (∀ s, s ≠ env.ttString tt → t1.Dots s = none)) ∧
    (∀ (t t1 : TableTemplate) (obj : Value) (out : Template),
      AssociateTemplate env fs t tt obj = (Except.ok out, t1) →
      t1.Dots (env.ttString tt)
          = some ((t.Dots (env.ttString tt)).getD [Value.nil] ++ [obj]) ∧
      (∀ s, s ≠ env.ttString tt → t1.Dots s = t.Dots s)) := by
  refine ⟨?_, ?_⟩
  · intro args name cs t1 hne h
    cases cs with
    | nil => exact absurd rfl hne
    | cons c cs =>
      unfold associateAll at h
      split at h
      · rename_i out t2 heq
        obtain ⟨h1, h2, -⟩ := AssociateTemplate_ok_Dots env fs _ tt c out t2 heq
        have h1 : t2.Dots (env.ttString tt) = some [Value.nil, c] := by
          simpa [freshRecord] using h1
        obtain ⟨h3, h4⟩ := associateAll_Dots env fs tt cs t2 t1 _ h1 h
        have h3 : t1.Dots (env.ttString tt) = some (Value.nil :: c :: cs) := by
          simpa using h3
        refine ⟨h3, by simp [h3], fun s hs => ?_⟩
        rw [h4 s hs, h2 s hs]
        rfl
      · simp at h
  · intro t t1 obj out h
    obtain ⟨h1, h2, -⟩ := AssociateTemplate_ok_Dots env fs t tt obj out t1 h
    exact ⟨h1, h2⟩

/-- C8, at two associations of the kind `XOTable` on the fresh record of
`users`. -/
theorem C8_AssociateTemplate_Dots_witness :
    associateAll demoEnv emptyFS TemplateType.XOTable
        [Value.data "a", Value.data "b"] (freshRecord demoArgs "users") = some demoAssociated ∧
      demoAssociated.Dots "xotable" = some [Value.nil, Value.data "a", Value.data "b"] :=
  ⟨rfl,
    ((C8_AssociateTemplate_Dots demoEnv emptyFS TemplateType.XOTable).1 demoArgs "users"
      [Value.data "a", Value.data "b"] demoAssociated (by simp) rfl).1⟩

/-- C6: for a name already in the registry, `GetTableTemplate` returns the
address stored for it and leaves the registry as it is; so after any call the
returned address is the one stored under the name, and a later call for the
name, whatever was associated with the record in between, returns that same
address (with the record as it then is) and changes nothing: neither
`tableTemplates` nor `TableTemplateKeys` nor any record. -/
theorem C6_GetTableTemplate_existing (args : ArgType) (name : String) (r : Registry) :
    (∀ p, r.tableTemplates name = some p → GetTableTemplate args name r = (p, r)) ∧
    (GetTableTemplate args name r).2.tableTemplates name
        = some (GetTableTemplate args name r).1 ∧
    (∀ heap1 : Nat → TableTemplate,
      GetTableTemplate args name { (GetTableTemplate args name r).2 with heap := heap1 }
        = ((GetTableTemplate args name r).1,
            { (GetTableTemplate args name r).2 with heap := heap1 })) ∧
    GetTableTemplate args name (GetTableTemplate args name r).2
        = GetTableTemplate args name r := by
  have h1 : ∀ (q : Registry) p, q.tableTemplates name = some p →
      GetTableTemplate args name q = (p, q) := by
    intro q p h
    simp [GetTableTemplate, h]
  have h2 : (GetTableTemplate args name r).2.tableTemplates name
      = some (GetTableTemplate args name r).1 := by
    cases h : r.tableTemplates name with
    | none => simp [GetTableTemplate, h]
    | some p => simp [GetTableTemplate, h]
  refine ⟨h1 r, h2, ?_, ?_⟩
  · intro heap1
    exact h1 _ _ h2
  · exact h1 _ _ h2

/-- C6, at the registry in which `users` was registered before `orders`: the
call returns the address stored for `users` and the keys stay as they are. -/
theorem C6_GetTableTemplate_existing_witness :
    (demoRegistry demoArgs).tableTemplates "users" = some 0 ∧
    (GetTableTemplate demoArgs "users" (demoRegistry demoArgs)).1 = 0 ∧
    (GetTableTemplate demoArgs "users" (demoRegistry demoArgs)).2.TableTemplateKeys
      = ["users", "orders"] :=
  ⟨by decide,
   congrArg Prod.fst
    ((C6_GetTableTemplate_existing demoArgs "users" (demoRegistry demoArgs)).1 0 (by decide)),
   by decide⟩

theorem Registry.empty_WF (blank : TableTemplate) : (Registry.empty blank).WF where
  nodup := by simp [Registry.empty]
  keys := by simp [Registry.empty]
  bound := by simp [Registry.empty]
  inj := by simp [Registry.empty]
  named := by simp [Registry.empty]

theorem GetTableTemplate_new (args : ArgType) (name : String) (r : Registry)
    (h : r.tableTemplates name = none) :
    GetTableTemplate args name r =
      (r.next,
        { TableTemplateKeys := r.TableTemplateKeys ++ [name]
          tableTemplates := upd r.tableTemplates name (some r.next)
          heap := upd r.heap r.next (freshRecord args name)
          next := r.next + 1 }) := by
  simp [GetTableTemplate, h, freshRecord]

theorem GetTableTemplate_old (args : ArgType) (name : String) (r : Registry) (p : Nat)
    (h : r.tableTemplates name = some p) : GetTableTemplate args name r = (p, r) := by
  simp [GetTableTemplate, h]

theorem GetTableTemplate_WF (args : ArgType) (name : String) (r : Registry) (h : r.WF) :
    (GetTableTemplate args name r).2.WF := by
  cases hm : r.tableTemplates name with
  | some p => rw [GetTableTemplate_old args name r p hm]; exact h
  | none =>
    rw [GetTableTemplate_new args name r hm]
    have hnot : name ∉ r.TableTemplateKeys := by
      rw [h.keys, hm]; simp
    constructor
    · simp only
      rw [List.nodup_append]
      refine ⟨h.nodup, List.nodup_singleton _, ?_⟩
      intro a ha hb
      rw [List.mem_singleton] at hb
      exact hnot (hb ▸ ha)
    · intro n
      simp only [List.mem_append, List.mem_singleton]
      by_cases hn : n = name
      · subst hn; simp
      · rw [upd_other _ _ _ _ hn, ← h.keys]; simp [hn]
    · intro n p hp
      simp only at hp ⊢
      by_cases hn : n = name
      · subst hn; simp at hp; omega
      · rw [upd_other _ _ _ _ hn] at hp
        have := h.bound n p hp
        omega
    · intro n m p hn hm1
      simp only at hn hm1
      by_cases h1 : n = name <;> by_cases h2 : m = name
      · rw [h1, h2]
      · subst h1
        rw [upd_other _ _ _ _ h2] at hm1
        simp at hn
        subst hn
        exact absurd (h.bound m _ hm1) (Nat.lt_irrefl _)
      · subst h2
        rw [upd_other _ _ _ _ h1] at hn
        simp at hm1
        subst hm1
        exact absurd (h.bound n _ hn) (Nat.lt_irrefl _)
      · rw [upd_other _ _ _ _ h1] at hn
        rw [upd_other _ _ _ _ h2] at hm1
        exact h.inj n m p hn hm1
    · intro n p hp
      simp only at hp ⊢
      by_cases hn : n = name
      · subst hn
        simp at hp
        subst hp
        simp [freshRecord, Template.new]
      · rw [upd_other _ _ _ _ hn] at hp
        have hb := h.bound n p hp
        rw [upd_other _ _ _ _ (Nat.ne_of_lt hb)]
        exact h.named n p hp

theorem registerAll_snoc (args : ArgType) (names : List String) (n : String) (r : Registry) :
    registerAll args (names ++ [n]) r
      = (GetTableTemplate args n (registerAll args names r)).2 := by
  simp [registerAll, List.foldl_append]

theorem registerAll_WF (args : ArgType) (names : List String) (r : Registry) (h : r.WF) :
    (registerAll args names r).WF := by
  induction names using List.reverseRecOn with
  | nil => exact h
  | append_singleton l a ih =>
    rw [registerAll_snoc]
    exact GetTableTemplate_WF args a _ ih

/-- The keys after a sequence of registrations: the requested names, each in
the place of its first request. -/
theorem registerAll_keys (args : ArgType) (blank : TableTemplate) (names : List String) :
    (∀ n, n ∈ (registerAll args names (Registry.empty blank)).TableTemplateKeys ↔ n ∈ names) ∧
    (∀ a b, a ∈ names → b ∈ names →
      ((registerAll args names (Registry.empty blank)).TableTemplateKeys.indexOf a
          < (registerAll args names (Registry.empty blank)).TableTemplateKeys.indexOf b
        ↔ names.indexOf a < names.indexOf b)) := by
  induction names using List.reverseRecOn with
  | nil => simp [registerAll, Registry.empty]
  | append_singleton l x ih =>
    obtain ⟨ihm, iho⟩ := ih
    have hwf := registerAll_WF args l (Registry.empty blank) (Registry.empty_WF blank)
    rw [registerAll_snoc]
    cases hm : (registerAll args l (Registry.empty blank)).tableTemplates x with
    | some p =>
      rw [GetTableTemplate_old args x _ p hm]
      have hx : x ∈ l := by
        rw [← ihm, hwf.keys, hm]; rfl
      have hsub : ∀ a, a ∈ l ++ [x] → a ∈ l := by
        intro a ha
        rcases List.mem_append.1 ha with ha | ha
        · exact ha
        · rw [List.mem_singleton] at ha; exact ha ▸ hx
      refine ⟨fun n => ?_, fun a b ha hb => ?_⟩
      · rw [ihm]
        exact ⟨fun h => List.mem_append_left _ h, hsub n⟩
      · rw [List.indexOf_append_of_mem (hsub a ha), List.indexOf_append_of_mem (hsub b hb)]
        exact iho a b (hsub a ha) (hsub b hb)
    | none =>
      rw [GetTableTemplate_new args x _ hm]
      simp only
      have hxk : x ∉ (registerAll args l (Registry.empty blank)).TableTemplateKeys := by
        rw [hwf.keys, hm]; simp
      have hxl : x ∉ l := fun h => hxk ((ihm x).2 h)
      have hmem : ∀ n, n ∈ (registerAll args l (Registry.empty blank)).TableTemplateKeys ++ [x]
          ↔ n ∈ l ++ [x] := by
        intro n
        simp only [List.mem_append, List.mem_singleton, ihm]
      refine ⟨hmem, fun a b ha hb => ?_⟩
      have hcase : ∀ c, c ∈ l ++ [x] → (c ∈ l ∧ c ≠ x) ∨ c = x := by
        intro c hc
        rcases List.mem_append.1 hc with hc | hc
        · exact Or.inl ⟨hc, fun h => hxl (h ▸ hc)⟩
        · exact Or.inr (List.mem_singleton.1 hc)
      rcases hcase a ha with ⟨hal, -⟩ | rfl <;> rcases hcase b hb with ⟨hbl, -⟩ | rfl
      · rw [List.indexOf_append_of_mem hal, List.indexOf_append_of_mem hbl,
          List.indexOf_append_of_mem ((ihm a).2 hal), List.indexOf_append_of_mem ((ihm b).2 hbl)]
        exact iho a b hal hbl
      · rw [List.indexOf_append_of_mem hal, List.indexOf_append_of_mem ((ihm a).2 hal),
          List.indexOf_append_of_not_mem hxl, List.indexOf_append_of_not_mem hxk]
        have h1 := List.indexOf_lt_length.2 hal
        have h2 := List.indexOf_lt_length.2 ((ihm a).2 hal)
        constructor <;> intro _ <;> omega
      · rw [List.indexOf_append_of_mem hbl, List.indexOf_append_of_mem ((ihm b).2 hbl),
          List.indexOf_append_of_not_mem hxl, List.indexOf_append_of_not_mem hxk]
        have h1 := List.indexOf_lt_length.2 hbl
        have h2 := List.indexOf_lt_length.2 ((ihm b).2 hbl)
        constructor <;> intro _ <;> omega
      · simp

/-- C1: after any sequence of `GetTableTemplate` calls from the empty
registry, `TableTemplateKeys` has no repetition, holds exactly the requested
names, lists them in the order of their first request (one name stands
before another in the keys exactly when its first request comes first), holds
exactly the keys of `tableTemplates`, and is left as it is by a further call
for a name it already holds. -/
theorem C1_TableTemplateKeys_order (args : ArgType) (blank : TableTemplate)
    (names : List String) :
    (registerAll args names (Registry.empty blank)).TableTemplateKeys.Nodup ∧
    (∀ n, n ∈ (registerAll args names (Registry.empty blank)).TableTemplateKeys ↔ n ∈ names) ∧
    (∀ a b, a ∈ names → b ∈ names →
      ((registerAll args names (Registry.empty blank)).TableTemplateKeys.indexOf a
          < (registerAll args names (Registry.empty blank)).TableTemplateKeys.indexOf b
        ↔ names.indexOf a < names.indexOf b)) ∧
    (∀ n, n ∈ (registerAll args names (Registry.empty blank)).TableTemplateKeys ↔
      ((registerAll args names (Registry.empty blank)).tableTemplates n).isSome = true) ∧
    (∀ n, n ∈ names →
      (registerAll args (names ++ [n]) (Registry.empty blank)).TableTemplateKeys
        = (registerAll args names (Registry.empty blank)).TableTemplateKeys) := by
  have hwf := registerAll_WF args names (Registry.empty blank) (Registry.empty_WF blank)
  obtain ⟨hm, ho⟩ := registerAll_keys args blank names
  refine ⟨hwf.nodup, hm, ho, hwf.keys, fun n hn => ?_⟩
  rw [registerAll_snoc]
  have h1 := (hwf.keys n).1 ((hm n).2 hn)
  cases hq : (registerAll args names (Registry.empty blank)).tableTemplates n with
  | none => rw [hq] at h1; simp at h1
  | some p => rw [GetTableTemplate_old args n _ p hq]

/-- C1, at the requests `users`, `orders`, `users`. -/
theorem C1_TableTemplateKeys_order_witness :
    (registerAll demoArgs ["users", "orders", "users"]
      (Registry.empty (freshRecord demoArgs ""))).TableTemplateKeys = ["users", "orders"] ∧
    (registerAll demoArgs (["users", "orders"] ++ ["users"])
      (Registry.empty (freshRecord demoArgs ""))).TableTemplateKeys
      = (registerAll demoArgs ["users", "orders"]
          (Registry.empty (freshRecord demoArgs ""))).TableTemplateKeys :=
  ⟨by decide,
   (C1_TableTemplateKeys_order demoArgs (freshRecord demoArgs "") ["users", "orders"]).2.2.2.2
      "users" (by decide)⟩

/-- One iteration of `writeTypes`, stage by stage. -/
theorem writeEntity_eq (env : Env) (args : ArgType) (tName : String) (w : World) :
    writeEntity env args tName w =
      match (entityAssoc env args tName w).1 with
      | Except.error e => (some e, { w with reg := entityReg env args tName w })
      | Except.ok tpl =>
        if !args.SingleFile then
          match getFile args w.fs (entityFile env args tName w) with
          | Except.error e =>
            if osIsExist (some e) then
              (none, { reg := entityReg env args tName w, fs := w.fs,
                       log := w.log ++ ["not overwriting existing file:  "
                                          ++ entityFile env args tName w] })
            else (some e, { w with reg := entityReg env args tName w })
          | Except.ok fs1 =>
            match (env.execute tpl (Value.tableTemplate (entityPtr args tName w))
                (entityReg env args tName w)).2 with
            | some e => (some e, entityWritten env args tName w tpl fs1)
            | none =>
              if !args.SkipGoImports then
                goimports env (entityFile env args tName w)
                  (entityWritten env args tName w tpl fs1)
              else (none, entityWritten env args tName w tpl fs1)
        else
          ((env.execute tpl (Value.tableTemplate (entityPtr args tName w))
              (entityReg env args tName w)).2,
            { w with reg :=
              { entityReg env args tName w with
                heap := upd (entityReg env args tName w).heap (entityPtr args tName w)
                  { (entityReg env args tName w).heap (entityPtr args tName w) with
                    Buf := ((entityReg env args tName w).heap (entityPtr args tName w)).Buf
                      ++ (env.execute tpl (Value.tableTemplate (entityPtr args tName w))
                            (entityReg env args tName w)).1 } } }) := by
  rfl

/-- The loop over a list of names followed by another. -/
theorem writeTypesLoop_append (env : Env) (args : ArgType) (pre rest : List String) :
    ∀ w, writeTypesLoop env args (pre ++ rest) w =
      match writeTypesLoop env args pre w with
      | (some e, w1) => (some e, w1)
      | (none, w1) => writeTypesLoop env args rest w1 := by
  induction pre with
  | nil => intro w; simp [writeTypesLoop]
  | cons n pre ih =>
    intro w
    simp only [List.cons_append, writeTypesLoop]
    cases h : writeEntity env args n w with
    | mk r w1 =>
      cases r with
      | some e => simp
      | none => simp [ih]

/-- An already-exists error of `getFile` means the target is an existing
file and overwrite is disabled. -/
theorem getFile_isExist (args : ArgType) (fs : FileSystem) (f : String) (e : GoError)
    (h : getFile args fs f = Except.error e) (hx : osIsExist (some e) = true) :
    (∃ c, fs f = Node.file c) ∧ args.Overwrite = false := by
  unfold getFile osStat at h
  cases hf : fs f with
  | missing =>
    rw [hf] at h
    by_cases ha : args.Append = true
    · simp [errOf, isPathError, ha, osOpenFile, hf] at h
    · simp [errOf, isPathError, ha, osOpenFile, hf] at h
  | file c =>
    rw [hf] at h
    refine ⟨⟨c, rfl⟩, ?_⟩
    by_cases ha : args.Append = true
    · simp [errOf, isPathError, ha, osOpenFile, hf] at h
    · simp [errOf, isPathError, ha, osOpenFile, hf] at h
      by_cases ho : args.Overwrite = false
      · exact ho
      · simp [ho] at h
  | dir =>
    rw [hf] at h
    simp at h
    subst h; simp [osIsExist] at hx
  | denied =>
    rw [hf] at h
    by_cases ha : args.Append = true
    · simp [errOf, isPathError, ha, osOpenFile, hf] at h
      subst h; simp [osIsExist] at hx
    · simp [errOf, isPathError, ha, osOpenFile, hf] at h
      subst h; simp [osIsExist] at hx

/-- C10: in an iteration of `writeTypes`, an error of the association
(resolution or parse), an error of `getFile` that is not an already-exists
error (such as the target being a directory), an error of the rendering, in a
file or in the buffer, and an error of the formatter are each returned by the
iteration; after an error of `getFile` the iteration goes on exactly when it
is an already-exists error, which is raised only because the target is an
existing file while overwrite is disabled; and when an iteration returns an
error, the loop and `writeTypes` return that error with the state as that
iteration left it, the later names not being processed. -/
theorem C10_writeTypes_abort (env : Env) (args : ArgType) :
    (∀ n w e, (entityAssoc env args n w).1 = Except.error e →
      (writeEntity env args n w).1 = some e) ∧
    (∀ n w tpl e, (entityAssoc env args n w).1 = Except.ok tpl → args.SingleFile = false →
      getFile args w.fs (entityFile env args n w) = Except.error e →
      osIsExist (some e) = false →
      (writeEntity env args n w).1 = some e) ∧
    (∀ n w tpl fs1 e, (entityAssoc env args n w).1 = Except.ok tpl → args.SingleFile = false →
      getFile args w.fs (entityFile env args n w) = Except.ok fs1 →
      (env.execute tpl (Value.tableTemplate (entityPtr args n w)) (entityReg env args n w)).2
        = some e →
      (writeEntity env args n w).1 = some e) ∧
    (∀ n w tpl fs1 e, (entityAssoc env args n w).1 = Except.ok tpl → args.SingleFile = false →
      getFile args w.fs (entityFile env args n w) = Except.ok fs1 →
      (env.execute tpl (Value.tableTemplate (entityPtr args n w)) (entityReg env args n w)).2
        = none →
      args.SkipGoImports = false →
      (goimports env (entityFile env args n w) (entityWritten env args n w tpl fs1)).1 = some e →
      (writeEntity env args n w).1 = some e) ∧
    (∀ n w tpl e, (entityAssoc env args n w).1 = Except.ok tpl → args.SingleFile = true →
      (env.execute tpl (Value.tableTemplate (entityPtr args n w)) (entityReg env args n w)).2
        = some e →
      (writeEntity env args n w).1 = some e) ∧
    (∀ n w tpl e, (entityAssoc env args n w).1 = Except.ok tpl → args.SingleFile = false →
      getFile args w.fs (entityFile env args n w) = Except.error e →
      ((writeEntity env args n w).1 = none ↔ osIsExist (some e) = true) ∧
      (osIsExist (some e) = true →
        (∃ c, w.fs (entityFile env args n w) = Node.file c) ∧ args.Overwrite = false)) ∧
    (∀ pre n post w w1 e w2, writeTypesLoop env args pre w = (none, w1) →
      writeEntity env args n w1 = (some e, w2) →
      writeTypesLoop env args (pre ++ n :: post) w = (some e, w2) ∧
      (w.reg.TableTemplateKeys = pre ++ n :: post → writeTypes env args w = (some e, w2))) := by
  refine ⟨?_, ?_, ?_, ?_, ?_, ?_, ?_⟩
  · intro n w e h
    rw [writeEntity_eq, h]
  · intro n w tpl e h hs hg hx
    rw [writeEntity_eq, h]
    simp [hs, hg, hx]
  · intro n w tpl fs1 e h hs hg hr
    rw [writeEntity_eq, h]
    simp [hs, hg, hr]
  · intro n w tpl fs1 e h hs hg hr hk hf
    rw [writeEntity_eq, h]
    simp [hs, hg, hr, hk, hf]
  · intro n w tpl e h hs hr
    rw [writeEntity_eq, h]
    simp [hs, hr]
  · intro n w tpl e h hs hg
    refine ⟨?_, fun hx => getFile_isExist args w.fs _ e hg hx⟩
    rw [writeEntity_eq, h]
    simp only [hs, hg]
    cases hx : osIsExist (some e) <;> simp
  · intro pre n post w w1 e w2 hpre hn
    have hloop : writeTypesLoop env args (pre ++ n :: post) w = (some e, w2) := by
      rw [writeTypesLoop_append, hpre]
      simp [writeTypesLoop, hn]
    refine ⟨hloop, fun hk => ?_⟩
    unfold writeTypes
    rw [hk, hloop]

/-- With overwrite and append disabled, `getFile` opens only a path that
names nothing, and creates an empty file there. -/
theorem getFile_ok_excl (args : ArgType) (fs fs1 : FileSystem) (f : String)
    (hO : args.Overwrite = false) (hA : args.Append = false)
    (h : getFile args fs f = Except.ok fs1) :
    fs f = Node.missing ∧ fs1 = upd fs f (Node.file "") := by
  unfold getFile osStat at h
  cases hf : fs f with
  | missing =>
    rw [hf] at h
    simp [errOf, isPathError, hA, osOpenFile, hf] at h
    exact ⟨rfl, h.symm⟩
  | file c =>
    rw [hf] at h
    simp [errOf, isPathError, hA, hO, osOpenFile, hf] at h
  | dir =>
    rw [hf] at h
    simp at h
  | denied =>
    rw [hf] at h
    simp [errOf, isPathError, hA, osOpenFile, hf] at h

/-- With overwrite and append disabled, `getFile` on an existing file fails
with the already-exists error. -/
theorem getFile_existing (args : ArgType) (fs : FileSystem) (f : String) (c : String)
    (hO : args.Overwrite = false) (hA : args.Append = false) (hf : fs f = Node.file c) :
    getFile args fs f = Except.error (GoError.pathError "open" f Errno.EEXIST) := by
  unfold getFile osStat
  rw [hf]
  simp [errOf, isPathError, hA, hO, osOpenFile, hf]

/-- The formatter touches no other path than the one it is given. -/
theorem goimports_frame (env : Env) (f : String) (w : World) (p : String) (h : p ≠ f) :
    (goimports env f w).2.fs p = w.fs p := by
  unfold goimports
  split
  · split
    · simp [upd_other _ _ _ _ h]
    · rfl
  · rfl

theorem fileWrite_frame (fs : FileSystem) (f : String) (out : String) (p : String)
    (h : p ≠ f) : fileWrite fs f out p = fs p := by
  unfold fileWrite
  cases fs f with
  | file c => exact upd_other _ _ _ _ h
  | missing => rfl
  | dir => rfl
  | denied => rfl

/-- With overwrite and append disabled, an iteration of `writeTypes` leaves
every existing file as it is. -/
theorem writeEntity_frame (env : Env) (args : ArgType) (hO : args.Overwrite = false)
    (hA : args.Append = false) (n : String) (w : World) (p : String) (c : String)
    (hp : w.fs p = Node.file c) : (writeEntity env args n w).2.fs p = Node.file c := by
  rw [writeEntity_eq]
  split
  · exact hp
  · split
    · split
      · split
        · exact hp
        · exact hp
      · rename_i fs1 hg
        obtain ⟨hm, hfs⟩ := getFile_ok_excl args w.fs fs1 _ hO hA hg
        have hne : p ≠ entityFile env args n w := by
          intro h; rw [h, hm] at hp; cases hp
        have hw : ∀ tpl, (entityWritten env args n w tpl fs1).fs p = Node.file c := by
          intro tpl
          simp only [entityWritten]
          rw [fileWrite_frame _ _ _ _ hne, hfs, upd_other _ _ _ _ hne]
          exact hp
        split
        · exact hw _
        · split
          · rw [goimports_frame _ _ _ _ hne]; exact hw _
          · exact hw _
    · exact hp

theorem writeTypesLoop_frame (env : Env) (args : ArgType) (hO : args.Overwrite = false)
    (hA : args.Append = false) (p : String) (c : String) (names : List String) :
    ∀ w, w.fs p = Node.file c → (writeTypesLoop env args names w).2.fs p = Node.file c := by
  induction names with
  | nil => intro w hp; exact hp
  | cons n rest ih =>
    intro w hp
    have h1 := writeEntity_frame env args hO hA n w p c hp
    unfold writeTypesLoop
    cases h : writeEntity env args n w with
    | mk r w1 =>
      rw [h] at h1
      cases r with
      | some e => exact h1
      | none => exact ih w1 h1

theorem writeSingleFile_frame (env : Env) (args : ArgType) (hO : args.Overwrite = false)
    (hA : args.Append = false) (w : World) (p : String) (c : String)
    (hp : w.fs p = Node.file c) : (writeSingleFile env args w).2.fs p = Node.file c := by
  unfold writeSingleFile
  simp only []
  split
  · exact hp
  · split
    · exact hp
    · split
      · exact hp
      · rename_i fs1 hg
        obtain ⟨hm, hfs⟩ := getFile_ok_excl args w.fs fs1 _ hO hA hg
        have hne : p ≠ env.getFilePath args "" := by
          intro h; rw [h, hm] at hp; cases hp
        have hw : ∀ out, (fileWrite fs1 (env.getFilePath args "") out) p = Node.file c := by
          intro out
          rw [fileWrite_frame _ _ _ _ hne, hfs, upd_other _ _ _ _ hne]
          exact hp
        split
        · exact hw _
        · split
          · rw [goimports_frame _ _ _ _ hne]; exact hw _
          · exact hw _

/-- C4 (amended): with overwrite and append both disabled, `writeTypes`
leaves every file that exists before the run with the content it had; and in
per-entity mode the iteration of an entity whose target file exists returns
no error, changes no file, logs the skip, and the loop goes on with the
remaining names. -/
theorem C4_existing_file_kept (env : Env) (args : ArgType) (hO : args.Overwrite = false)
    (hA : args.Append = false) :
    (∀ w p c, w.fs p = Node.file c → (writeTypes env args w).2.fs p = Node.file c) ∧
    (∀ n rest w tpl c, args.SingleFile = false →
      (entityAssoc env args n w).1 = Except.ok tpl →
      w.fs (entityFile env args n w) = Node.file c →
      writeEntity env args n w =
        (none, { reg := entityReg env args n w, fs := w.fs,
                 log := w.log ++ ["not overwriting existing file:  "
                                    ++ entityFile env args n w] }) ∧
      writeTypesLoop env args (n :: rest) w =
        writeTypesLoop env args rest
          { reg := entityReg env args n w, fs := w.fs,
            log := w.log ++ ["not overwriting existing file:  "
                               ++ entityFile env args n w] }) := by
  refine ⟨?_, ?_⟩
  · intro w p c hp
    have h1 := writeTypesLoop_frame env args hO hA p c w.reg.TableTemplateKeys w hp
    unfold writeTypes
    cases h : writeTypesLoop env args w.reg.TableTemplateKeys w with
    | mk r w1 =>
      rw [h] at h1
      cases r with
      | some e => exact h1
      | none =>
        simp only
        split
        · exact writeSingleFile_frame env args hO hA w1 p c h1
        · exact h1
  · intro n rest w tpl c hs ha hf
    have he : writeEntity env args n w =
        (none, { reg := entityReg env args n w, fs := w.fs,
                 log := w.log ++ ["not overwriting existing file:  "
                                    ++ entityFile env args n w] }) := by
      rw [writeEntity_eq, ha]
      simp [hs, getFile_existing args w.fs _ c hO hA hf, osIsExist]
    refine ⟨he, ?_⟩
    rw [writeTypesLoop, he]

/-- C4, as stated, fails: with overwrite disabled and append enabled, the
existing target file of `users` is opened for appending and the rendered
output is added to it, without any error. -/
theorem C4_counterexample :
    appendArgs.Overwrite = false ∧ appendArgs.SingleFile = false ∧
    appendWorld.fs "users.xo.go" = Node.file "old" ∧
    (writeTypes demoEnv appendArgs appendWorld).1 = none ∧
    (writeTypes demoEnv appendArgs appendWorld).2.fs "users.xo.go" = Node.file "old<users>" := by
  decide

/-- C4 (amended), at a run in which the target file of `users` exists: it
keeps its content, no error is returned, and the file of `orders` is
written. -/
theorem C4_existing_file_kept_witness :
    keptWorld.fs "users.xo.go" = Node.file "old" ∧
    (writeTypes demoEnv demoArgs keptWorld).2.fs "users.xo.go" = Node.file "old" ∧
    (writeTypes demoEnv demoArgs keptWorld).1 = none ∧
    (writeTypes demoEnv demoArgs keptWorld).2.fs "orders.xo.go" = Node.file "<orders>" :=
  ⟨by decide,
   (C4_existing_file_kept demoEnv demoArgs (by decide) (by decide)).1 keptWorld "users.xo.go"
      "old" (by decide),
   by decide, by decide⟩

/-- C10, at a run in which the target path of `users` is a directory: the
error of `getFile` is returned and the file of `orders` is not written. -/
theorem C10_writeTypes_abort_witness :
    (writeTypes demoEnv demoArgs dirWorld).1
      = some (GoError.text "filename cannot be directory") ∧
    (writeTypes demoEnv demoArgs dirWorld).2.fs "orders.xo.go" = Node.missing := by
  have h := ((C10_writeTypes_abort demoEnv demoArgs).2.2.2.2.2.2 [] "users" ["orders"]
    dirWorld dirWorld (GoError.text "filename cannot be directory")
    (writeEntity demoEnv demoArgs "users" dirWorld).2 rfl rfl).2 rfl
  rw [h]
  exact ⟨rfl, by decide⟩

/-- `TemplateSet.Execute` never changes the set: nothing is stored in
`tpls`. -/
theorem Execute_keeps_set (env : Env) (fs : FileSystem) (globals : Registry)
    (ts : TemplateSet) (w : String) (name : String) (obj : Value) :
    (TemplateSet.Execute env fs globals ts w name obj).ts = ts := by
  unfold TemplateSet.Execute
  split
  · rfl
  · split
    · rfl
    · split <;> rfl

/-- C2: the code at the failing input. Executing `xotable.go.tpl` twice
through one template set, with two contexts, calls the loader and the parser
in both executions: after the first, successful one the set still has no
template under the name, the second one loads and parses again, and a broken
override file that appears between the two makes the second one fail with the
parse error. -/
theorem C2_Execute_parses_again :
    firstRun.err = none ∧ firstRun.w = "[a]" ∧
    firstRun.calls = [Call.load "xotable.go.tpl", Call.parse "xotable.go.tpl"] ∧
    (firstRun.ts.tpls "xotable.go.tpl").isSome = false ∧
    secondRun.err = none ∧ secondRun.w = "[a][b]" ∧
    secondRun.calls = [Call.load "xotable.go.tpl", Call.parse "xotable.go.tpl"] ∧
    secondRunBroken.err = some (GoError.library "template" "parse error") ∧
    secondRunBroken.calls = [Call.load "xotable.go.tpl", Call.parse "xotable.go.tpl"] := by
  decide

/-- `GetTableTemplate` leaves every record but the one it returns. -/
theorem GetTableTemplate_heap (args : ArgType) (n : String) (r : Registry) (q : Nat)
    (h : q ≠ (GetTableTemplate args n r).1) :
    (GetTableTemplate args n r).2.heap q = r.heap q := by
  cases hm : r.tableTemplates n with
  | some p => rw [GetTableTemplate_old args n r p hm]
  | none =>
    rw [GetTableTemplate_new args n r hm] at h ⊢
    exact upd_other _ _ _ _ h

/-- An iteration of `writeTypes` changes no record but the one of its own
name: the buffers of the names still to come are as they were. -/
theorem writeEntity_other_records (env : Env) (args : ArgType) (n : String) (w : World)
    (q : Nat) (h : q ≠ entityPtr args n w) :
    (writeEntity env args n w).2.reg.heap q = w.reg.heap q := by
  have hreg : (entityReg env args n w).heap q = w.reg.heap q := by
    simp only [entityReg]
    rw [upd_other _ _ _ _ h]
    exact GetTableTemplate_heap args n w.reg q h
  rw [writeEntity_eq]
  split
  · exact hreg
  · split
    · split
      · split
        · exact hreg
        · exact hreg
      · split
        · exact hreg
        · split
          · unfold goimports
            split
            · split <;> exact hreg
            · exact hreg
          · exact hreg
    · simp only
      rw [upd_other _ _ _ _ h]
      exact hreg

/-- In single-file mode a successful iteration on a registered name appends
the rendered output of its entity to the buffer of that entity. -/
theorem writeEntity_fills_buffer (env : Env) (args : ArgType) (n : String) (w : World)
    (tpl : Template) (p : Nat) (hs : args.SingleFile = true)
    (hp : w.reg.tableTemplates n = some p)
    (ha : (entityAssoc env args n w).1 = Except.ok tpl) :
    entityPtr args n w = p ∧
    ((writeEntity env args n w).2.reg.heap p).Buf
      = (w.reg.heap p).Buf
        ++ (env.execute tpl (Value.tableTemplate p) (entityReg env args n w)).1 := by
  have hptr : entityPtr args n w = p := by
    simp [entityPtr, GetTableTemplate_old args n w.reg p hp]
  refine ⟨hptr, ?_⟩
  rw [writeEntity_eq, ha]
  simp only [hs]
  simp only [Bool.not_true, Bool.false_eq_true, if_false, hptr, upd_same]
  congr 1
  simp only [entityReg, hptr, upd_same]
  have := AssociateTemplate_ok_Dots env w.fs _ TemplateType.XOTable _ tpl
    (entityAssoc env args n w).2 (by rw [← ha]; rfl)
  rw [this.2.2.1, GetTableTemplate_old args n w.reg p hp, hptr]

/-- The context of the single-file template does not depend on
`TableTemplateKeys`. -/
theorem GetSingleFileData_ignores_keys (args : ArgType) (r : Registry) (keys : List String) :
    GetSingleFileData args { r with TableTemplateKeys := keys } = GetSingleFileData args r := by
  rfl

/-- C5: the code at the failing input. With `users` registered before
`orders`, single-file mode fills the two buffers, hands the single-file
template the configuration and the map `tableTemplates` (the same context
whatever the order of the keys), and the output of a template that ranges
over that map holds the content of `orders` before that of `users`. -/
theorem C5_aggregate_order :
    singleWorld.reg.TableTemplateKeys = ["users", "orders"] ∧
    (writeTypes demoEnv singleArgs singleWorld).1 = none ∧
    ((writeTypes demoEnv singleArgs singleWorld).2.reg.heap 0).Buf = "<users>" ∧
    ((writeTypes demoEnv singleArgs singleWorld).2.reg.heap 1).Buf = "<orders>" ∧
    GetSingleFileData singleArgs (writeTypes demoEnv singleArgs singleWorld).2.reg
      = Value.singleFileData singleArgs
          (writeTypes demoEnv singleArgs singleWorld).2.reg.tableTemplates ∧
    (writeTypes demoEnv singleArgs singleWorld).2.fs "all.xo.go"
      = Node.file "<orders><users>" :=
  ⟨by decide, by decide, by decide, by decide, rfl, by decide⟩

end Xo
